import Mathlib

/-!
Verification of the fast-rpc routing library (src/index.ts).

The embedding models the request-dispatch pipeline of the `FastRPC` class:
name resolution from the URL path, input parsing and schema validation,
sequential middleware execution with short-circuit and context threading,
handler invocation, and the top-level error mapping, together with the
client's `query` caller.

JSON values are modelled by the inductive `JValue`; a request carries the
URL pathname, the HTTP method, and the outcome of parsing its body as JSON
(the platform's `req.json()` either yields a value or throws).  A zod
schema is modelled by its observable contract `safeParse : value ->
success data | failure errors`.  A middleware is modelled by what the
executor loop in `handle` observes of it: whether it invoked its `next`
continuation (and with which context, the last call winning), whether its
return value was a `Response` object, or whether it threw.  Handlers may
return a value or throw.  To make claims of the form "X is never invoked"
statable, the dispatcher also produces the list of invocation events in
the order they occur, and the `console.error` call of the catch block is
recorded as a `logged` event.
-/

namespace FastRpc

/-- JSON values exchanged between client, router, middleware and handlers. -/
inductive JValue where
  | null
  | bool (b : Bool)
  | num (n : Int)
  | str (s : String)
  | arr (elems : List JValue)
  | obj (fields : List (String × JValue))

/-- A request context: a plain JS object, modelled as a field list.
The spread `\x7b...this.ctx\x7d` in `handle` copies it shallowly; since the
model's values are immutable, the copy is the same value. -/
abbrev Context := List (String × JValue)

/-- An HTTP response: `Response.json(body, status)` in the source. -/
structure Resp where
  status : Nat
  body : JValue

/-- A thrown JS error, as classified by the catch block of `handle`:
either an `instanceof z.ZodError` carrying its structured `errors` list,
or any other error. -/
inductive Err where
  | zodError (errors : List JValue)
  | other (message : String)

/-- The result of zod's `safeParse`: success with the canonicalized or
coerced `data`, or failure with the structured `error.errors` list. -/
inductive SafeParseResult where
  | success (data : JValue)
  | failure (errors : List JValue)

/-- A zod schema, modelled by its `safeParse` contract. -/
abbrev Schema := JValue → SafeParseResult

/-- What the middleware loop of `handle` observes of one middleware call:
either it finished, with `nextCtx = some c` when the `next` continuation
was invoked (the last invocation's context) and `returned = some resp`
when the middleware's own return value was a `Response` object; or it
threw an error. -/
inductive MWOutcome where
  | ok (nextCtx : Option Context) (returned : Option Resp)
  | thrown (e : Err)

/-- A middleware function, as observed by the executor loop. -/
abbrev Middleware := Context → MWOutcome

/-- A procedure handler: receives the validated input and the final
context, returns a JSON-serializable value or throws. -/
abbrev Handler := JValue → Context → Except Err JValue

/-- A route table entry: `\x7b handler, middleware, input \x7d` in `FastRPC.routes`. -/
structure Route where
  handler : Handler
  middleware : List Middleware
  input : Option Schema

/-- The router: its route table and its base context (`this.ctx`).
The JS `Record` keyed by name is modelled as an association list in which
the most recent registration comes first, so `List.lookup` returns it. -/
structure FastRPC where
  routes : List (String × Route)
  ctx : Context

/-- Registration, `FastRPC.procedure(name, handler, middleware, input)`:
stores an entry
under `name`, overwriting any prior entry with that name (the new entry is
prepended, so `List.lookup` finds it first). -/
def FastRPC.procedure (r : FastRPC) (name : String) (handler : Handler)
    (middleware : List Middleware) (input : Option Schema) : FastRPC :=
  { r with routes := (name, Route.mk handler middleware input) :: r.routes }

/-- An incoming HTTP request, as far as `handle` inspects it: the URL
pathname (`new URL(req.url).pathname`), the method, and the outcome of
`await req.json()` — a JSON value, or an error when the body is not valid
JSON. -/
structure Request where
  path : String
  method : String
  jsonBody : Except Unit JValue

/-- Invocation events of one `handle` call, in temporal order:
`mwInvoked i` when the i-th middleware of the chain (0-based registration
order) is invoked, `handlerInvoked` when the route handler is invoked,
and `logged e` when the catch block calls `console.error(e)`. -/
inductive Event where
  | mwInvoked (idx : Nat)
  | handlerInvoked
  | logged (e : Err)

/-- The module-level `const emptyObject`, an empty JS object. -/
def emptyObject : JValue := JValue.obj []

/-- The module-level `notFoundResponse`: status 404, body with field
`error` set to `Not found`. -/
def notFoundResponse : Resp :=
  Resp.mk 404 (JValue.obj [("error", JValue.str "Not found")])

/-- The module-level `errorResponse`: status 500, body with field
`error` set to `Unknown error`. -/
def errorResponse : Resp :=
  Resp.mk 500 (JValue.obj [("error", JValue.str "Unknown error")])

/-- The inline 400 response of the JSON-parse failure path: body with
field `error` set to `Invalid JSON`. -/
def invalidJsonResponse : Resp :=
  Resp.mk 400 (JValue.obj [("error", JValue.str "Invalid JSON")])

/-- JS `String.prototype.split` with the single-character separator `/`,
over the character list: splitting the empty string gives one empty
segment, adjacent, leading and trailing separators give empty segments. -/
def splitOnSlash : List Char → List (List Char)
  | [] => [[]]
  | c :: cs =>
    match splitOnSlash cs with
    | [] => [[]]
    | g :: gs => if c = '/' then [] :: g :: gs else (c :: g) :: gs

/-- The segments of `url.pathname.split("/")`, as a list of strings. -/
def pathSegments (pathname : String) : List String :=
  (splitOnSlash pathname.data).map (fun cs => String.mk cs)

/-- Name resolution in `handle`:
`url.pathname.split("/").pop() || ""`.  `pop` takes the last element
(the split result is never empty), and `|| ""` only replaces
`undefined`. -/
def resolveName (pathname : String) : String :=
  ((pathSegments pathname).getLast?).getD ""

/-- Input determination (step 3 of `handle`): non-POST methods use
`emptyObject`; POST parses the body as JSON and a parse failure yields
the 400 Invalid JSON response. -/
def parseInput (req : Request) : Sum Resp JValue :=
  if req.method = "POST" then
    match req.jsonBody with
    | Except.error _ => Sum.inl invalidJsonResponse
    | Except.ok v => Sum.inr v
  else Sum.inr emptyObject

/-- Schema validation (step 4 of `handle`): with no schema the input
passes through; with a schema, `safeParse` failure yields a 400 response
whose `error` field is the structured error list, and success replaces
the input with `result.data`. -/
def validateInput : Option Schema → JValue → Sum Resp JValue
  | none, v => Sum.inr v
  | some s, v =>
    match s v with
    | SafeParseResult.failure errs =>
        Sum.inl (Resp.mk 400 (JValue.obj [("error", JValue.arr errs)]))
    | SafeParseResult.success data => Sum.inr data

/-- Steps 3 and 4 of `handle` combined: determine the input, then
validate it against the route's schema if present. -/
def resolveInput (route : Route) (req : Request) : Sum Resp JValue :=
  match parseInput req with
  | Sum.inl resp => Sum.inl resp
  | Sum.inr v => validateInput route.input v

/-- The middleware loop of `handle`, with the index of the first
middleware of `ms` in the whole chain as `i`.  Each middleware is invoked
with the current context; if its return value is a `Response` it is the
chain's result regardless of whether `next` was invoked; otherwise, if
`next` was not invoked the loop breaks and the current context stands;
otherwise the loop advances with the context passed to `next`.  A thrown
error propagates.  The second component is the invocation trace. -/
def runMWs : List Middleware → Nat → Context →
    (Except Err (Sum Resp Context)) × List Event
  | [], _, ctx => (Except.ok (Sum.inr ctx), [])
  | m :: rest, i, ctx =>
    match m ctx with
    | MWOutcome.thrown e => (Except.error e, [Event.mwInvoked i])
    | MWOutcome.ok _ (some resp) =>
        (Except.ok (Sum.inl resp), [Event.mwInvoked i])
    | MWOutcome.ok none none => (Except.ok (Sum.inr ctx), [Event.mwInvoked i])
    | MWOutcome.ok (some c₂) none =>
        let res := runMWs rest (i + 1) c₂
        (res.1, Event.mwInvoked i :: res.2)

/-- The property names every plain JS object literal inherits from
`Object.prototype`; reading any of them on `this.routes` yields a truthy
value (a built-in function, or the prototype object for `__proto__`)
even though no route was registered under that name. -/
def objectPrototypeProps : List String :=
  ["constructor", "hasOwnProperty", "isPrototypeOf", "propertyIsEnumerable",
   "toLocaleString", "toString", "valueOf", "__defineGetter__",
   "__defineSetter__", "__lookupGetter__", "__lookupSetter__", "__proto__"]

/-- The outcome of the JS property read `this.routes[name]` on the plain
object `routes`: an own (registered) property, a truthy value inherited
from `Object.prototype`, or `undefined`. -/
inductive PropLookup where
  | own (route : Route)
  | inherited
  | absent

/-- The property read `this.routes[name]`: own properties (registered
routes, which shadow the prototype) first, then the prototype chain of a
plain object literal, else `undefined`.  Only the `absent` case is falsy
and takes the `!route` 404 branch. -/
def routesGet (routes : List (String × Route)) (name : String) : PropLookup :=
  match List.lookup name routes with
  | some route => PropLookup.own route
  | none =>
    if name ∈ objectPrototypeProps then PropLookup.inherited
    else PropLookup.absent

/-- The body of the `try` block of `handle`, after name resolution:
route lookup (404 only when the property read is `undefined`), input
determination and validation, the middleware chain (short-circuit on a
returned `Response`), handler invocation, and 200-serialization of the
handler's return value.  When the lookup hits an inherited
`Object.prototype` value, the 404 branch is skipped, `route.input` and
`route.middleware` are `undefined` (so validation and the loop are
skipped, though body parsing has already run), and the call
`route.handler(input, ctx)` throws a `TypeError` — nothing is invoked.
Errors propagate to the caller (`handleWith`), which models the catch
block. -/
def dispatch (r : FastRPC) (req : Request) (name : String) :
    (Except Err Resp) × List Event :=
  match routesGet r.routes name with
  | PropLookup.absent => (Except.ok notFoundResponse, [])
  | PropLookup.inherited =>
    match parseInput req with
    | Sum.inl resp => (Except.ok resp, [])
    | Sum.inr _ =>
        (Except.error (Err.other "route.handler is not a function"), [])
  | PropLookup.own route =>
    match resolveInput route req with
    | Sum.inl resp => (Except.ok resp, [])
    | Sum.inr input =>
      match runMWs route.middleware 0 r.ctx with
      | (Except.error e, tr) => (Except.error e, tr)
      | (Except.ok (Sum.inl resp), tr) => (Except.ok resp, tr)
      | (Except.ok (Sum.inr finalCtx), tr) =>
        match route.handler input finalCtx with
        | Except.error e => (Except.error e, tr ++ [Event.handlerInvoked])
        | Except.ok v =>
            (Except.ok (Resp.mk 200 v), tr ++ [Event.handlerInvoked])

/-- The result of one `handle` call: the response, the invocation trace,
and the router afterwards.  `handle` only reads `this.routes` and
`this.ctx` and never assigns them, so the returned router equals the
argument. -/
structure HandleResult where
  resp : Resp
  events : List Event
  router : FastRPC

/-- The function `handle` with the resolved procedure name as an
explicit argument:
runs `dispatch` and models the catch block, mapping a thrown `ZodError`
to a 400 response carrying its structured errors and any other error to
the generic 500 response after logging it. -/
def handleWith (r : FastRPC) (req : Request) (name : String) : HandleResult :=
  match dispatch r req name with
  | (Except.ok resp, tr) => HandleResult.mk resp tr r
  | (Except.error (Err.zodError errs), tr) =>
      HandleResult.mk
        (Resp.mk 400 (JValue.obj [("error", JValue.arr errs)])) tr r
  | (Except.error e, tr) =>
      HandleResult.mk errorResponse (tr ++ [Event.logged e]) r

/-- The entry point `FastRPC.handle(req)`: resolve the name from the
URL path and
dispatch. -/
def handle (r : FastRPC) (req : Request) : HandleResult :=
  handleWith r req (resolveName req.path)

/-- The last non-empty segment of a URL pathname — this follows the
SPEC'S WORDS ("take the last non-empty path segment as the procedure
name"), for comparison with the source's `resolveName`. -/
def specLastNonEmptySegment (pathname : String) : String :=
  (((pathSegments pathname).filter (fun s => decide (s ≠ ""))).getLast?).getD ""

/-- An outgoing fetch call, as constructed by the client. -/
structure FetchRequest where
  url : String
  method : String
  body : Option String

/-- A fetch response, as far as the client inspects it. -/
structure FetchResponse where
  ok : Bool
  status : Nat
  json : JValue

/-- The fetch request issued by `client.<name>.query(input?)` in
`createClient`: a GET to `baseUrl/<name>` with no body.  The `input`
parameter of the closure is never referenced. -/
def clientQueryRequest (baseUrl name : String) (input : Option JValue) :
    FetchRequest :=
  FetchRequest.mk (baseUrl ++ "/" ++ name) "GET" none

/-- The call `client.<name>.query(input?)`: issue the GET request; a
non-ok
response throws an error carrying the status, otherwise the JSON body is
returned. -/
def clientQuery (doFetch : FetchRequest → FetchResponse)
    (baseUrl name : String) (input : Option JValue) : Except Nat JValue :=
  let response := doFetch (clientQueryRequest baseUrl name input)
  if response.ok then Except.ok response.json
  else Except.error response.status

/-- The chain `Advances ms c c'` holds when every middleware of `ms`, run
in sequence starting from context `c`, invokes its continuation and does
not return a `Response` nor throw, threading the contexts passed to the
continuations and ending at `c'`. -/
inductive Advances : List Middleware → Context → Context → Prop
  | nil (c : Context) : Advances [] c c
  | cons (m : Middleware) (ms : List Middleware) (c c₂ c₃ : Context)
      (hm : m c = MWOutcome.ok (some c₂) none)
      (h : Advances ms c₂ c₃) : Advances (m :: ms) c c₃

/-- Running a chain that starts with an advancing prefix: the prefix
contributes its invocation events and threads the context, then the rest
of the chain runs from the threaded context. -/
theorem runMWs_append (pre ms : List Middleware) (c c' : Context)
    (h : Advances pre c c') (i : Nat) :
    runMWs (pre ++ ms) i c =
      ((runMWs ms (i + pre.length) c').1,
        (List.range' i pre.length).map Event.mwInvoked ++
          (runMWs ms (i + pre.length) c').2) := by
  induction h generalizing i with
  | nil c => simp [runMWs]
  | cons m ms₀ c c₂ c₃ hm hadv ih =>
    simp only [List.cons_append, runMWs, hm, List.length_cons,
      List.range'_succ, List.map_cons, List.cons_append, List.append_eq]
    rw [ih (i + 1)]
    have harith : i + 1 + ms₀.length = i + (ms₀.length + 1) := by omega
    rw [harith]

/-- The invocation trace of the middleware loop is always an initial run
of consecutive indices starting at `i`, at most one per middleware. -/
theorem runMWs_trace_shape (ms : List Middleware) (i : Nat) (c : Context) :
    ∃ n, n ≤ ms.length ∧
      (runMWs ms i c).2 = (List.range' i n).map Event.mwInvoked := by
  induction ms generalizing i c with
  | nil => exact ⟨0, by simp, by simp [runMWs]⟩
  | cons m rest ih =>
    cases hm : m c with
    | thrown e =>
      exact ⟨1, by simp, by simp [runMWs, hm, List.range'_succ]⟩
    | ok nc ret =>
      cases ret with
      | some resp =>
        exact ⟨1, by simp, by simp [runMWs, hm, List.range'_succ]⟩
      | none =>
        cases nc with
        | none =>
          exact ⟨1, by simp, by simp [runMWs, hm, List.range'_succ]⟩
        | some c₂ =>
          obtain ⟨n, hn, htr⟩ := ih (i + 1) c₂
          refine ⟨n + 1, by simpa using hn, ?_⟩
          simp [runMWs, hm, htr, List.range'_succ]

/-- If a list's last element is non-empty, it is also the last element of
the list with empty strings filtered out. -/
theorem getLast_filter_of_ne (l : List String) (s : String)
    (h : l.getLast? = some s) (hs : s ≠ "") :
    (l.filter (fun t => decide (t ≠ ""))).getLast? = some s := by
  induction l with
  | nil => simp at h
  | cons a l' ih =>
    cases l' with
    | nil =>
      simp only [List.getLast?_singleton, Option.some.injEq] at h
      subst h
      simp [List.filter, hs]
    | cons b l'' =>
      rw [List.getLast?_cons_cons] at h
      have htail := ih h
      have hne : (List.filter (fun t => decide (t ≠ "")) (b :: l'')) ≠ [] := by
        intro hcontra
        rw [hcontra] at htail
        simp at htail
      rcases eq_or_ne a "" with ha | ha
      · rw [@List.filter_cons_of_neg _ (fun t => decide (t ≠ "")) a
          (b :: l'') (by simp [ha])]
        exact htail
      · rw [@List.filter_cons_of_pos _ (fun t => decide (t ≠ "")) a
          (b :: l'') (by simp [ha])]
        rw [List.getLast?_cons, htail]
        simp

/-- A handler that returns a fixed ok object, like the `status` procedure
of the test suite. -/
def okHandler : Handler := fun _ _ =>
  Except.ok (JValue.obj [("status", JValue.str "ok")])

/-- A small concrete router with a single schemaless `status` query. -/
def demoRouter : FastRPC :=
  FastRPC.mk [("status", Route.mk okHandler [] none)]
    [("role", JValue.str "user")]

/-- C1 (code bug): the claim's unconditional 404 for unregistered names
is the spec's stated contract, but the code violates it at names
inherited from `Object.prototype`.  On the demo router, `toString` is
not registered — `List.lookup` yields `none` — yet `GET /toString` reads
the truthy inherited `Object.prototype.toString`, skips the `!route`
404 branch, and the later `route.handler(input, ctx)` call throws a
`TypeError` that the catch block maps to the logged 500
`error: Unknown error` response, with no middleware or handler invoked.
An ordinary unregistered name such as `unknown` still takes the 404
path. -/
theorem handle_prototype_leak_bug :
    List.lookup "toString" demoRouter.routes = none ∧
    (handle demoRouter (Request.mk "/toString" "GET" (Except.ok JValue.null))).resp =
      errorResponse ∧
    (handle demoRouter (Request.mk "/toString" "GET" (Except.ok JValue.null))).resp.status = 500 ∧
    (handle demoRouter (Request.mk "/toString" "GET" (Except.ok JValue.null))).events =
      [Event.logged (Err.other "route.handler is not a function")] ∧
    (handle demoRouter (Request.mk "/unknown" "GET" (Except.ok JValue.null))).resp =
      notFoundResponse ∧
    (handle demoRouter (Request.mk "/unknown" "GET" (Except.ok JValue.null))).events = [] :=
  ⟨by rfl, by rfl, by rfl, by rfl, by rfl, by rfl⟩

/-- C4: for a request to a registered procedure, a non-POST method makes
the input the empty object, and a POST whose body fails to parse as JSON
yields status 400 with body `error: Invalid JSON` while neither any
middleware nor the handler is invoked (empty invocation trace). -/
theorem handle_input_determination (r : FastRPC) (req : Request) (route : Route)
    (hroute : List.lookup (resolveName req.path) r.routes = some route) :
    (req.method ≠ "POST" → parseInput req = Sum.inr emptyObject) ∧
    (req.method = "POST" → req.jsonBody = Except.error () →
      (handle r req).resp.status = 400 ∧
      (handle r req).resp.body = JValue.obj [("error", JValue.str "Invalid JSON")] ∧
      (handle r req).events = []) := by
  constructor
  · intro hm
    simp [parseInput, hm]
  · intro hm hb
    simp [handle, handleWith, dispatch, routesGet, hroute, resolveInput, parseInput,
      hm, hb, invalidJsonResponse]

/-- Witness for C4: a GET request to the registered `status` procedure
uses the empty object as input; a POST to it with an unparseable body
yields the 400 Invalid JSON response with an empty trace. -/
theorem handle_input_determination_witness :
    parseInput (Request.mk "/status" "GET" (Except.ok JValue.null)) = Sum.inr emptyObject ∧
    ((handle demoRouter (Request.mk "/status" "POST" (Except.error ()))).resp.status = 400 ∧
      (handle demoRouter (Request.mk "/status" "POST" (Except.error ()))).resp.body =
        JValue.obj [("error", JValue.str "Invalid JSON")] ∧
      (handle demoRouter (Request.mk "/status" "POST" (Except.error ()))).events = []) :=
  ⟨(handle_input_determination demoRouter
      (Request.mk "/status" "GET" (Except.ok JValue.null))
      (Route.mk okHandler [] none) (by rfl)).1 (by decide),
   (handle_input_determination demoRouter
      (Request.mk "/status" "POST" (Except.error ()))
      (Route.mk okHandler [] none) (by rfl)).2 rfl rfl⟩

/-- C10: the client's `query` method ignores its input argument: for any
two inputs (including none) it issues the identical fetch request — a GET
to `baseUrl/name` with no body — and returns the same result. -/
theorem clientQuery_ignores_input (doFetch : FetchRequest → FetchResponse)
    (baseUrl name : String) (i₁ i₂ : Option JValue) :
    clientQueryRequest baseUrl name i₁ =
      FetchRequest.mk (baseUrl ++ "/" ++ name) "GET" none ∧
    clientQueryRequest baseUrl name i₁ = clientQueryRequest baseUrl name i₂ ∧
    clientQuery doFetch baseUrl name i₁ = clientQuery doFetch baseUrl name i₂ :=
  ⟨rfl, rfl, rfl⟩

/-- A middleware-invocation event is in the mapped index run exactly when
its index is below the run length. -/
theorem mwInvoked_mem_map_range (i n : Nat) :
    (Event.mwInvoked i ∈ (List.range' 0 n).map Event.mwInvoked) ↔ i < n := by
  simp [List.mem_map, List.mem_range']

/-- An advancing middleware that extends the context with a timestamp
field, like `addTimestamp` in the test suite. -/
def mwAdvance : Middleware := fun c =>
  MWOutcome.ok (some (("ts", JValue.num 1) :: c)) none

/-- A middleware that invokes its continuation and also returns a 401
`Response`. -/
def mwAuth401 : Middleware := fun c =>
  MWOutcome.ok (some c)
    (some (Resp.mk 401 (JValue.obj [("error", JValue.str "Unauthorized")])))

/-- A middleware that neither invokes its continuation nor returns a
`Response`. -/
def mwStop : Middleware := fun _ => MWOutcome.ok none none

/-- The base context of the concrete routers below. -/
def baseCtx : Context := [("role", JValue.str "user")]

/-- A router whose `adminOnly` procedure carries the three-middleware
chain used to exercise short-circuiting. -/
def c2Router : FastRPC :=
  FastRPC.mk [("adminOnly", Route.mk okHandler [mwAdvance, mwAuth401, mwStop] none)]
    baseCtx

/-- C2: if, after an advancing prefix of the chain, a middleware returns
a `Response`, `handle` returns exactly that response; the trace contains
the invocations up to and including that middleware only — no later
middleware and not the handler — even when that middleware also invoked
its continuation (`nc` is arbitrary, and may be `some`). -/
theorem handle_middleware_response_short_circuits
    (r : FastRPC) (req : Request) (route : Route) (input : JValue)
    (pre post : List Middleware) (m : Middleware) (c' : Context)
    (nc : Option Context) (resp : Resp)
    (hroute : List.lookup (resolveName req.path) r.routes = some route)
    (hinput : resolveInput route req = Sum.inr input)
    (hmw : route.middleware = pre ++ m :: post)
    (hadv : Advances pre r.ctx c')
    (hm : m c' = MWOutcome.ok nc (some resp)) :
    (handle r req).resp = resp ∧
    (handle r req).events =
      (List.range' 0 (pre.length + 1)).map Event.mwInvoked ∧
    Event.handlerInvoked ∉ (handle r req).events := by
  have hrun : runMWs route.middleware 0 r.ctx =
      (Except.ok (Sum.inl resp),
        (List.range' 0 (pre.length + 1)).map Event.mwInvoked) := by
    rw [hmw, runMWs_append pre (m :: post) r.ctx c' hadv 0]
    simp [runMWs, hm, List.range'_1_concat]
  have hev : handle r req = HandleResult.mk resp
      ((List.range' 0 (pre.length + 1)).map Event.mwInvoked) r := by
    simp [handle, handleWith, dispatch, routesGet, hroute, hinput, hrun]
  rw [hev]
  exact ⟨rfl, rfl, by simp⟩

/-- Witness for C2: in `c2Router`'s chain, `mwAdvance` advances, then
`mwAuth401` both invokes its continuation and returns a 401 response;
`handle` returns the 401 and neither `mwStop` nor the handler is
invoked. -/
theorem handle_middleware_response_short_circuits_witness :
    (handle c2Router (Request.mk "/adminOnly" "GET" (Except.ok JValue.null))).resp =
      Resp.mk 401 (JValue.obj [("error", JValue.str "Unauthorized")]) ∧
    (handle c2Router (Request.mk "/adminOnly" "GET" (Except.ok JValue.null))).events =
      (List.range' 0 2).map Event.mwInvoked ∧
    Event.handlerInvoked ∉
      (handle c2Router (Request.mk "/adminOnly" "GET" (Except.ok JValue.null))).events :=
  handle_middleware_response_short_circuits c2Router
    (Request.mk "/adminOnly" "GET" (Except.ok JValue.null))
    (Route.mk okHandler [mwAdvance, mwAuth401, mwStop] none) emptyObject
    [mwAdvance] [mwStop] mwAuth401 (("ts", JValue.num 1) :: baseCtx)
    (some (("ts", JValue.num 1) :: baseCtx))
    (Resp.mk 401 (JValue.obj [("error", JValue.str "Unauthorized")]))
    (by rfl) (by rfl) rfl
    (Advances.cons _ _ _ _ _ rfl (Advances.nil _)) rfl

/-- C7: if, after an advancing prefix, a middleware neither invokes its
continuation nor returns a `Response`, the chain stops there without
error: the handler is invoked (with the context that middleware
received, i.e. the one current before it ran), exactly the middleware up
to and including the stopping one were invoked, and a succeeding handler
gives its value as the 200 response. -/
theorem handle_middleware_fallthrough
    (r : FastRPC) (req : Request) (route : Route) (input : JValue)
    (pre post : List Middleware) (m : Middleware) (c' : Context)
    (hroute : List.lookup (resolveName req.path) r.routes = some route)
    (hinput : resolveInput route req = Sum.inr input)
    (hmw : route.middleware = pre ++ m :: post)
    (hadv : Advances pre r.ctx c')
    (hm : m c' = MWOutcome.ok none none) :
    Event.handlerInvoked ∈ (handle r req).events ∧
    (∀ j, Event.mwInvoked j ∈ (handle r req).events ↔ j < pre.length + 1) ∧
    (∀ out, route.handler input c' = Except.ok out →
      (handle r req).resp = Resp.mk 200 out) := by
  have hrun : runMWs route.middleware 0 r.ctx =
      (Except.ok (Sum.inr c'),
        (List.range' 0 (pre.length + 1)).map Event.mwInvoked) := by
    rw [hmw, runMWs_append pre (m :: post) r.ctx c' hadv 0]
    simp [runMWs, hm, List.range'_1_concat]
  cases hh : route.handler input c' with
  | ok v =>
    have hev : handle r req = HandleResult.mk (Resp.mk 200 v)
        (((List.range' 0 (pre.length + 1)).map Event.mwInvoked) ++
          [Event.handlerInvoked]) r := by
      simp [handle, handleWith, dispatch, routesGet, hroute, hinput, hrun, hh]
    rw [hev]
    refine ⟨by simp, ?_, ?_⟩
    · intro j
      simp [mwInvoked_mem_map_range]
    · intro out hout
      injection hout with hv
      rw [hv]
  | error e =>
    cases e with
    | zodError errs =>
      have hev : handle r req = HandleResult.mk
          (Resp.mk 400 (JValue.obj [("error", JValue.arr errs)]))
          (((List.range' 0 (pre.length + 1)).map Event.mwInvoked) ++
            [Event.handlerInvoked]) r := by
        simp [handle, handleWith, dispatch, routesGet, hroute, hinput, hrun, hh]
      rw [hev]
      refine ⟨by simp, ?_, fun out hout => absurd hout (by simp)⟩
      intro j
      simp [mwInvoked_mem_map_range]
    | other msg =>
      have hev : handle r req = HandleResult.mk errorResponse
          ((((List.range' 0 (pre.length + 1)).map Event.mwInvoked) ++
            [Event.handlerInvoked]) ++ [Event.logged (Err.other msg)]) r := by
        simp [handle, handleWith, dispatch, routesGet, hroute, hinput, hrun, hh]
      rw [hev]
      refine ⟨by simp, ?_, fun out hout => absurd hout (by simp)⟩
      intro j
      simp [mwInvoked_mem_map_range]

/-- A router whose `status` procedure has an advancing middleware
followed by one that stops the chain silently. -/
def c7Router : FastRPC :=
  FastRPC.mk [("status", Route.mk okHandler [mwAdvance, mwStop] none)] baseCtx

/-- Witness for C7: with chain `mwAdvance, mwStop`, `mwStop` neither
advances nor responds, so the handler runs with the context `mwAdvance`
produced and its value is the 200 response; both middleware and the
handler appear in the trace. -/
theorem handle_middleware_fallthrough_witness :
    Event.handlerInvoked ∈
      (handle c7Router (Request.mk "/status" "GET" (Except.ok JValue.null))).events ∧
    (∀ j, Event.mwInvoked j ∈
        (handle c7Router (Request.mk "/status" "GET" (Except.ok JValue.null))).events ↔
      j < 2) ∧
    (∀ out, okHandler emptyObject (("ts", JValue.num 1) :: baseCtx) = Except.ok out →
      (handle c7Router (Request.mk "/status" "GET" (Except.ok JValue.null))).resp =
        Resp.mk 200 out) :=
  handle_middleware_fallthrough c7Router
    (Request.mk "/status" "GET" (Except.ok JValue.null))
    (Route.mk okHandler [mwAdvance, mwStop] none) emptyObject
    [mwAdvance] [] mwStop (("ts", JValue.num 1) :: baseCtx)
    (by rfl) (by rfl) rfl
    (Advances.cons _ _ _ _ _ rfl (Advances.nil _)) rfl

/-- A chain that advances through the whole middleware list yields the
final context, and the trace is one invocation per middleware. -/
theorem runMWs_full_advance (ms : List Middleware) (c c' : Context)
    (h : Advances ms c c') :
    runMWs ms 0 c =
      (Except.ok (Sum.inr c'), (List.range' 0 ms.length).map Event.mwInvoked) := by
  have := runMWs_append ms [] c c' h 0
  rw [List.append_nil] at this
  rw [this]
  simp [runMWs]

/-- C3: for a request to a registered procedure with an input schema,
when the parsed input fails validation `handle` returns 400 with the
structured error list and nothing is invoked; when validation succeeds
the handler receives the schema's canonicalized value `result.data` (not
the raw parsed input): with an advancing chain, a handler succeeding on
`data` determines the 200 response. -/
theorem handle_schema_validation (r : FastRPC) (req : Request) (route : Route)
    (s : Schema) (raw : JValue)
    (hroute : List.lookup (resolveName req.path) r.routes = some route)
    (hschema : route.input = some s)
    (hparse : parseInput req = Sum.inr raw) :
    (∀ errs, s raw = SafeParseResult.failure errs →
      (handle r req).resp = Resp.mk 400 (JValue.obj [("error", JValue.arr errs)]) ∧
      (handle r req).events = []) ∧
    (∀ data c' out, s raw = SafeParseResult.success data →
      Advances route.middleware r.ctx c' →
      route.handler data c' = Except.ok out →
      (handle r req).resp = Resp.mk 200 out ∧
      Event.handlerInvoked ∈ (handle r req).events) := by
  constructor
  · intro errs hfail
    have hin : resolveInput route req =
        Sum.inl (Resp.mk 400 (JValue.obj [("error", JValue.arr errs)])) := by
      simp [resolveInput, hparse, validateInput, hschema, hfail]
    constructor <;>
      simp [handle, handleWith, dispatch, routesGet, hroute, hin]
  · intro data c' out hsucc hadv hout
    have hin : resolveInput route req = Sum.inr data := by
      simp [resolveInput, hparse, validateInput, hschema, hsucc]
    have hrun := runMWs_full_advance route.middleware r.ctx c' hadv
    constructor <;>
      simp [handle, handleWith, dispatch, routesGet, hroute, hin, hrun, hout]

/-- A handler that echoes its (validated) input, exposing which value
the dispatcher passed to it. -/
def echoHandler : Handler := fun v _ => Except.ok v

/-- A schema requiring a string `name` field; its success value is a
canonicalized object that differs from the raw input (it records a
`coerced` marker), so the handler observably receives `result.data`. -/
def nameSchema : Schema := fun v =>
  match v with
  | JValue.obj fields =>
    match fields.lookup "name" with
    | some (JValue.str s) =>
        SafeParseResult.success
          (JValue.obj [("name", JValue.str s), ("coerced", JValue.bool true)])
    | _ => SafeParseResult.failure [JValue.str "name: Required"]
  | _ => SafeParseResult.failure [JValue.str "expected object"]

/-- A router with a schema-bearing `createUser` procedure whose handler
echoes the validated input. -/
def c3Router : FastRPC :=
  FastRPC.mk [("createUser", Route.mk echoHandler [] (some nameSchema))] baseCtx

/-- Witness for C3: a POST body without `name` yields 400 with the
non-empty error list and an empty trace; a body with `name` succeeds and
the echoed 200 body is the canonicalized `result.data`, not the raw
input. -/
theorem handle_schema_validation_witness :
    ((handle c3Router (Request.mk "/createUser" "POST"
        (Except.ok (JValue.obj [("bogus", JValue.num 1)])))).resp =
      Resp.mk 400 (JValue.obj [("error", JValue.arr [JValue.str "name: Required"])]) ∧
     (handle c3Router (Request.mk "/createUser" "POST"
        (Except.ok (JValue.obj [("bogus", JValue.num 1)])))).events = []) ∧
    ((handle c3Router (Request.mk "/createUser" "POST"
        (Except.ok (JValue.obj [("name", JValue.str "Ann")])))).resp =
      Resp.mk 200 (JValue.obj [("name", JValue.str "Ann"), ("coerced", JValue.bool true)]) ∧
     Event.handlerInvoked ∈
       (handle c3Router (Request.mk "/createUser" "POST"
         (Except.ok (JValue.obj [("name", JValue.str "Ann")])))).events) :=
  ⟨(handle_schema_validation c3Router
      (Request.mk "/createUser" "POST"
        (Except.ok (JValue.obj [("bogus", JValue.num 1)])))
      (Route.mk echoHandler [] (some nameSchema)) nameSchema
      (JValue.obj [("bogus", JValue.num 1)])
      (by rfl) rfl (by rfl)).1 [JValue.str "name: Required"] rfl,
   (handle_schema_validation c3Router
      (Request.mk "/createUser" "POST"
        (Except.ok (JValue.obj [("name", JValue.str "Ann")])))
      (Route.mk echoHandler [] (some nameSchema)) nameSchema
      (JValue.obj [("name", JValue.str "Ann")])
      (by rfl) rfl (by rfl)).2
      (JValue.obj [("name", JValue.str "Ann"), ("coerced", JValue.bool true)])
      baseCtx
      (JValue.obj [("name", JValue.str "Ann"), ("coerced", JValue.bool true)])
      rfl (Advances.nil baseCtx) rfl⟩

/-- C8: every error thrown after name resolution — by a middleware
reached through an advancing prefix, or by the handler after the chain
advanced — is caught at the top level of `handle`: a schema-layer
`ZodError` yields 400 with its structured errors as the body's `error`
field and is not logged, any other error yields 500 with body
`error: Unknown error` and is logged.  `handle` is a total function of
the model, so it never throws. -/
theorem handle_error_mapping (r : FastRPC) (req : Request) (route : Route)
    (input : JValue)
    (hroute : List.lookup (resolveName req.path) r.routes = some route)
    (hinput : resolveInput route req = Sum.inr input) :
    (∀ pre post m c' e, route.middleware = pre ++ m :: post →
      Advances pre r.ctx c' → m c' = MWOutcome.thrown e →
      ((∀ errs, e = Err.zodError errs →
          (handle r req).resp =
            Resp.mk 400 (JValue.obj [("error", JValue.arr errs)]) ∧
          Event.logged e ∉ (handle r req).events) ∧
        (∀ msg, e = Err.other msg →
          (handle r req).resp = errorResponse ∧
          Event.logged e ∈ (handle r req).events))) ∧
    (∀ c' e, Advances route.middleware r.ctx c' →
      route.handler input c' = Except.error e →
      ((∀ errs, e = Err.zodError errs →
          (handle r req).resp =
            Resp.mk 400 (JValue.obj [("error", JValue.arr errs)]) ∧
          Event.logged e ∉ (handle r req).events) ∧
        (∀ msg, e = Err.other msg →
          (handle r req).resp = errorResponse ∧
          Event.logged e ∈ (handle r req).events))) := by
  constructor
  · intro pre post m c' e hmw hadv hm
    have hrun : runMWs route.middleware 0 r.ctx =
        (Except.error e,
          (List.range' 0 (pre.length + 1)).map Event.mwInvoked) := by
      rw [hmw, runMWs_append pre (m :: post) r.ctx c' hadv 0]
      simp [runMWs, hm, List.range'_1_concat]
    constructor
    · rintro errs rfl
      constructor <;>
        simp [handle, handleWith, dispatch, routesGet, hroute, hinput, hrun]
    · rintro msg rfl
      constructor <;>
        simp [handle, handleWith, dispatch, routesGet, hroute, hinput, hrun,
          errorResponse]
  · intro c' e hadv hh
    have hrun := runMWs_full_advance route.middleware r.ctx c' hadv
    constructor
    · rintro errs rfl
      constructor <;>
        simp [handle, handleWith, dispatch, routesGet, hroute, hinput, hrun, hh]
    · rintro msg rfl
      constructor <;>
        simp [handle, handleWith, dispatch, routesGet, hroute, hinput, hrun, hh,
          errorResponse]

/-- A middleware that throws a plain error. -/
def mwThrow : Middleware := fun _ => MWOutcome.thrown (Err.other "boom")

/-- A handler that throws a `ZodError`, as a schema-internal failure
would. -/
def zodThrowHandler : Handler := fun _ _ =>
  Except.error (Err.zodError [JValue.str "bad refinement"])

/-- A router with a procedure whose middleware throws and a procedure
whose handler throws a `ZodError`. -/
def c8Router : FastRPC :=
  FastRPC.mk
    [("boom", Route.mk okHandler [mwThrow] none),
     ("zod", Route.mk zodThrowHandler [] none)] baseCtx

/-- Witness for C8: the throwing middleware yields the generic 500
response with the error logged; the handler throwing a `ZodError` yields
400 with the structured errors and nothing logged. -/
theorem handle_error_mapping_witness :
    ((handle c8Router (Request.mk "/boom" "GET" (Except.ok JValue.null))).resp =
        errorResponse ∧
      Event.logged (Err.other "boom") ∈
        (handle c8Router (Request.mk "/boom" "GET" (Except.ok JValue.null))).events) ∧
    ((handle c8Router (Request.mk "/zod" "GET" (Except.ok JValue.null))).resp =
        Resp.mk 400 (JValue.obj [("error", JValue.arr [JValue.str "bad refinement"])]) ∧
      Event.logged (Err.zodError [JValue.str "bad refinement"]) ∉
        (handle c8Router (Request.mk "/zod" "GET" (Except.ok JValue.null))).events) :=
  ⟨((handle_error_mapping c8Router
        (Request.mk "/boom" "GET" (Except.ok JValue.null))
        (Route.mk okHandler [mwThrow] none) emptyObject
        (by rfl) (by rfl)).1 [] [] mwThrow baseCtx (Err.other "boom")
        rfl (Advances.nil baseCtx) rfl).2 "boom" rfl,
   ((handle_error_mapping c8Router
        (Request.mk "/zod" "GET" (Except.ok JValue.null))
        (Route.mk zodThrowHandler [] none) emptyObject
        (by rfl) (by rfl)).2 baseCtx
        (Err.zodError [JValue.str "bad refinement"])
        (Advances.nil baseCtx) rfl).1 [JValue.str "bad refinement"] rfl⟩

/-- The router component of a `handle` result is always the router that
was called: `handle` reads `this.routes` and `this.ctx` and assigns
neither. -/
theorem handleWith_router (r : FastRPC) (req : Request) (name : String) :
    (handleWith r req name).router = r := by
  rcases h : dispatch r req name with ⟨res, tr⟩
  cases res with
  | ok resp => simp [handleWith, h]
  | error e => cases e <;> simp [handleWith, h]

/-- C9: the working context starts as the (shallow copy of the) router's
base context — the advancing chain in the hypothesis starts at `r.ctx` —
each context passed to a continuation is the one the next middleware and
finally the handler observe (the chain ends at `c₂` and a handler
succeeding on `c₂` determines the response), and the router, in
particular its base context, is unchanged after `handle` returns, so a
subsequent independent request starts from the original base context. -/
theorem handle_context_threading (r : FastRPC) (req : Request) (route : Route)
    (input : JValue) (c₂ : Context)
    (hroute : List.lookup (resolveName req.path) r.routes = some route)
    (hinput : resolveInput route req = Sum.inr input)
    (hadv : Advances route.middleware r.ctx c₂) :
    (∀ out, route.handler input c₂ = Except.ok out →
      (handle r req).resp = Resp.mk 200 out) ∧
    (handle r req).router = r ∧
    ((handle r req).router).ctx = r.ctx := by
  have hrun := runMWs_full_advance route.middleware r.ctx c₂ hadv
  refine ⟨?_, handleWith_router r req (resolveName req.path), ?_⟩
  · intro out hout
    simp [handle, handleWith, dispatch, routesGet, hroute, hinput, hrun, hout]
  · rw [handle, handleWith_router]

/-- A handler that returns its context as the response body, exposing
which context the dispatcher passed to it. -/
def ctxHandler : Handler := fun _ c => Except.ok (JValue.obj c)

/-- A router with two advancing middleware and a context-echoing
handler. -/
def c9Router : FastRPC :=
  FastRPC.mk [("whoami", Route.mk ctxHandler [mwAdvance, mwAdvance] none)] baseCtx

/-- Witness for C9: both middleware thread their extended contexts, the
handler observes the final context (the echoed body shows both added
fields on top of the base context), and the router after `handle` still
carries the original base context. -/
theorem handle_context_threading_witness :
    (handle c9Router (Request.mk "/whoami" "GET" (Except.ok JValue.null))).resp =
      Resp.mk 200 (JValue.obj
        (("ts", JValue.num 1) :: ("ts", JValue.num 1) :: baseCtx)) ∧
    (handle c9Router (Request.mk "/whoami" "GET" (Except.ok JValue.null))).router =
      c9Router ∧
    ((handle c9Router (Request.mk "/whoami" "GET" (Except.ok JValue.null))).router).ctx =
      baseCtx := by
  have h := handle_context_threading c9Router
    (Request.mk "/whoami" "GET" (Except.ok JValue.null))
    (Route.mk ctxHandler [mwAdvance, mwAdvance] none) emptyObject
    (("ts", JValue.num 1) :: ("ts", JValue.num 1) :: baseCtx)
    (by rfl) (by rfl)
    (Advances.cons _ _ _ _ _ rfl (Advances.cons _ _ _ _ _ rfl (Advances.nil _)))
  exact ⟨h.1 _ rfl, h.2.1, h.2.2⟩

/-- Counterexample to C5 as stated: for the path `/status/` the last
NON-EMPTY segment is `status`, which is registered in the demo router,
yet `handle` resolves the name to the last raw segment — the empty
string after the trailing slash — looks that up, and returns 404. -/
theorem resolve_last_segment_counterexample :
    specLastNonEmptySegment "/status/" = "status" ∧
    resolveName "/status/" = "" ∧
    resolveName "/status/" ≠ specLastNonEmptySegment "/status/" ∧
    (List.lookup "status" demoRouter.routes).isSome = true ∧
    (handle demoRouter (Request.mk "/status/" "GET" (Except.ok JValue.null))).resp.status = 404 :=
  ⟨by rfl, by rfl, by decide, by rfl, by rfl⟩

/-- C5 amended: `handle` takes the procedure name as the last RAW path
segment (the substring after the final slash, empty when the path ends
with a slash); whenever that segment is non-empty — in particular for
every multi-segment path not ending in a slash — it coincides with the
last non-empty segment, so such paths collapse to their final
segment. -/
theorem handle_resolves_last_segment (r : FastRPC) (req : Request)
    (h : resolveName req.path ≠ "") :
    resolveName req.path = specLastNonEmptySegment req.path ∧
    handle r req = handleWith r req (specLastNonEmptySegment req.path) := by
  have hseg : ∃ s, (pathSegments req.path).getLast? = some s ∧ s ≠ "" := by
    cases hg : (pathSegments req.path).getLast? with
    | none => exact absurd (by simp [resolveName, hg]) h
    | some s => exact ⟨s, rfl, by simpa [resolveName, hg] using h⟩
  obtain ⟨s, hg, hs⟩ := hseg
  have hf := getLast_filter_of_ne (pathSegments req.path) s hg hs
  have heq : resolveName req.path = specLastNonEmptySegment req.path := by
    unfold resolveName specLastNonEmptySegment
    rw [hg, hf]
  exact ⟨heq, by rw [handle, heq]⟩

/-- Witness for C5 (amended): `/api/v1/status` has non-empty last
segment; the resolved name is the last non-empty segment `status` and
the demo router serves it the same as `/status`. -/
theorem handle_resolves_last_segment_witness :
    resolveName "/api/v1/status" =
      specLastNonEmptySegment "/api/v1/status" ∧
    handle demoRouter (Request.mk "/api/v1/status" "GET" (Except.ok JValue.null)) =
      handleWith demoRouter
        (Request.mk "/api/v1/status" "GET" (Except.ok JValue.null))
        (specLastNonEmptySegment "/api/v1/status") :=
  handle_resolves_last_segment demoRouter
    (Request.mk "/api/v1/status" "GET" (Except.ok JValue.null)) (by decide)

/-- The trace of the `try`-block body: an initial run of middleware
invocations in index order, followed only by non-middleware events. -/
theorem dispatch_trace_shape (r : FastRPC) (req : Request) (name : String) :
    ∃ n rest, (dispatch r req name).2 =
        (List.range' 0 n).map Event.mwInvoked ++ rest ∧
      ∀ j, Event.mwInvoked j ∉ rest := by
  cases hlk : routesGet r.routes name with
  | absent => exact ⟨0, [], by simp [dispatch, hlk], by simp⟩
  | inherited =>
    cases hpi : parseInput req with
    | inl resp => exact ⟨0, [], by simp [dispatch, hlk, hpi], by simp⟩
    | inr v => exact ⟨0, [], by simp [dispatch, hlk, hpi], by simp⟩
  | own route =>
    cases hin : resolveInput route req with
    | inl resp => exact ⟨0, [], by simp [dispatch, hlk, hin], by simp⟩
    | inr input =>
      obtain ⟨n, hn, htr⟩ := runMWs_trace_shape route.middleware 0 r.ctx
      rcases hrw : runMWs route.middleware 0 r.ctx with ⟨res, tr⟩
      rw [hrw] at htr
      have htr2 : tr = (List.range' 0 n).map Event.mwInvoked := htr
      cases res with
      | error e =>
        exact ⟨n, [], by simp [dispatch, hlk, hin, hrw, htr2], by simp⟩
      | ok sum =>
        cases sum with
        | inl resp =>
          exact ⟨n, [], by simp [dispatch, hlk, hin, hrw, htr2], by simp⟩
        | inr finalCtx =>
          cases hh : route.handler input finalCtx with
          | error e =>
            exact ⟨n, [Event.handlerInvoked],
              by simp [dispatch, hlk, hin, hrw, hh, htr2], by simp⟩
          | ok v =>
            exact ⟨n, [Event.handlerInvoked],
              by simp [dispatch, hlk, hin, hrw, hh, htr2], by simp⟩

/-- C6: in every `handle` call, the middleware that run do so in exactly
registration order — the invocation trace is the run
`mwInvoked 0, mwInvoked 1, ...` with no gaps or repetitions — and every
middleware invocation precedes any handler invocation: after the initial
run no middleware event occurs. -/
theorem handle_middleware_order (r : FastRPC) (req : Request) :
    ∃ n rest, (handle r req).events =
        (List.range' 0 n).map Event.mwInvoked ++ rest ∧
      ∀ j, Event.mwInvoked j ∉ rest := by
  obtain ⟨n, rest, hsh, hfree⟩ :=
    dispatch_trace_shape r req (resolveName req.path)
  rcases hd : dispatch r req (resolveName req.path) with ⟨res, tr⟩
  rw [hd] at hsh
  simp only at hsh
  cases res with
  | ok resp =>
    exact ⟨n, rest, by simp [handle, handleWith, hd, hsh], hfree⟩
  | error e =>
    cases e with
    | zodError errs =>
      exact ⟨n, rest, by simp [handle, handleWith, hd, hsh], hfree⟩
    | other msg =>
      refine ⟨n, rest ++ [Event.logged (Err.other msg)], ?_, ?_⟩
      · simp [handle, handleWith, hd, hsh]
      · intro j
        simp [hfree j]

end FastRpc
